import Mathlib

set_option maxHeartbeats 1000000

/-!
Shallow embedding of the shpool daemon core
(`src/src/daemon.rs`, `src/libshpool/src/consts.rs`,
`src/libshpool/src/daemon/show_motd.rs`).

Unix streams and process handles are modelled as abstract numeric ids.
Blocking I/O is modelled by passing in the sequence of outcomes the
environment produces (read results, write results, lock availability),
so each handler becomes a pure function of its inputs.  Reply writes in
the attach handler are modelled as succeeding; their failure paths are
not the subject of any claim below.
-/

namespace Shpool

/-- Modelled from the spec: the `protocol` module is not under `src/`.
The attach reply status is one of Created, Attached, Busy (spec section 6). -/
inductive AttachStatus where
  | created
  | attached
  | busy
deriving DecidableEq, Repr

/-- ShellSessionInner from daemon.rs: the shell process handle and the
current client stream, both modelled as abstract ids. -/
structure ShellSessionInner where
  shell_proc : Nat
  client_stream : Nat
deriving DecidableEq, Repr

/-- ShellSession from daemon.rs: creation timestamp (milliseconds since the
Unix epoch, negative for pre-epoch clocks) plus the lockable inner state.
`locked` records whether some worker currently holds the inner mutex
(i.e. a pump is active), which is what `try_lock` tests. -/
structure ShellSession where
  started_at : Int
  locked : Bool
  inner : ShellSessionInner
deriving DecidableEq, Repr

/-- The daemon's registry: a map from session name to session, modelled as
an association list with unique keys (HashMap iteration order is
irrelevant to every claim). -/
structure Daemon where
  shells : List (String × ShellSession)
deriving DecidableEq, Repr

/-- HashMap::get -/
def lookupSession : List (String × ShellSession) → String → Option ShellSession
  | [], _ => none
  | p :: t, n => if p.1 = n then some p.2 else lookupSession t n

/-- HashMap::insert for a key already checked absent (position irrelevant). -/
def insertSession (d : Daemon) (name : String) (sess : ShellSession) : Daemon :=
  ⟨d.shells ++ [(name, sess)]⟩

/-- Writing back a session under an existing key. -/
def updateSession (d : Daemon) (name : String) (sess : ShellSession) : Daemon :=
  ⟨d.shells.map fun p => if p.1 = name then (p.1, sess) else p⟩

/-- spawn_subshell from daemon.rs: on success the freshly spawned child and
the client stream are packed into a ShellSessionInner; failures of
user_info / Command::spawn are the `Except.error` case of `spawnOutcome`. -/
def spawn_subshell (client_stream : Nat) (spawnOutcome : Except String Nat) :
    Except String ShellSessionInner :=
  match spawnOutcome with
  | .error e => .error e
  | .ok child => .ok { shell_proc := child, client_stream := client_stream }

/-- Ordered trace of the observable events of one handle_attach call,
including the worker thread it spawns (the worker's events happen after
the handler's, since the handler releases its try-lock guard before
spawning the worker and the worker's first action is to re-acquire). -/
inductive AEvent where
  | tryLockOk
  | tryLockFail
  | setStream (s : Nat)
  | writeReply (s : Nat) (st : AttachStatus)
  | statusDetermined (st : AttachStatus)
  | lockRelease
  | closeStream (s : Nat)
  | spawnShell
  | insertSess (n : String)
  | workerLock
  | pumpStart
deriving DecidableEq, Repr

/-- Everything one handle_attach call does: its return value, the registry
afterwards (with `locked := true` recording that the spawned worker holds
the session lock while pumping), the replies written (stream id, status),
the streams shut down, the session pumped, and the full event trace. -/
structure AttachResult where
  result : Except String Unit
  daemon : Daemon
  status : Option AttachStatus
  writes : List (Nat × AttachStatus)
  closed : List Nat
  pumped : Option String
  events : List AEvent
deriving Repr

/-- Daemon::handle_attach from daemon.rs lines 104-162.  Three cases:
name found with free lock (take over: replace stream, write Attached
under the try-lock, release, worker re-locks, writes the reply again and
pumps); name found with held lock (write Busy on the new stream, shut it
down, mutate nothing); name absent (spawn, insert, worker locks, writes
Created, pumps).  Spawn failure propagates before any insert or write. -/
def handle_attach (d : Daemon) (name : String) (stream : Nat)
    (spawnOutcome : Except String Nat) (now : Int) : AttachResult :=
  match lookupSession d.shells name with
  | some session =>
    if session.locked then
      { result := .ok (), daemon := d, status := none,
        writes := [(stream, .busy)], closed := [stream], pumped := none,
        events := [.tryLockFail, .writeReply stream .busy, .closeStream stream] }
    else
      let inner2 : ShellSessionInner := { session.inner with client_stream := stream }
      let session2 : ShellSession := { session with inner := inner2, locked := true }
      { result := .ok (), daemon := updateSession d name session2,
        status := some .attached,
        writes := [(stream, .attached), (stream, .attached)], closed := [],
        pumped := some name,
        events := [.tryLockOk, .setStream stream, .writeReply stream .attached,
                   .statusDetermined .attached, .lockRelease, .workerLock,
                   .writeReply stream .attached, .pumpStart] }
  | none =>
    match spawn_subshell stream spawnOutcome with
    | .error e =>
      { result := .error e, daemon := d, status := none,
        writes := [], closed := [], pumped := none, events := [.spawnShell] }
    | .ok inner =>
      let sess : ShellSession := { started_at := now, locked := true, inner := inner }
      { result := .ok (), daemon := insertSession d name sess,
        status := some .created,
        writes := [(inner.client_stream, .created)], closed := [],
        pumped := some name,
        events := [.spawnShell, .insertSess name, .statusDetermined .created,
                   .workerLock, .writeReply inner.client_stream .created, .pumpStart] }

/-- Lock occupancy after one event. -/
def eventLockStep (held : Bool) (e : AEvent) : Bool :=
  match e with
  | .tryLockOk => true
  | .workerLock => true
  | .lockRelease => false
  | _ => held

/-- Whether the session's exclusive lock is held after a trace. -/
def lockHeldAfter (tr : List AEvent) : Bool := tr.foldl eventLockStep false

def isStatusDet : AEvent → Bool
  | .statusDetermined _ => true
  | _ => false

def isPumpStart : AEvent → Bool
  | .pumpStart => true
  | _ => false

def isReplyWrite : AEvent → Bool
  | .writeReply _ _ => true
  | _ => false

/-- A trace position lies in the claim's window when the status has been
determined but the pump has not yet begun. -/
def inWindow (p : List AEvent) : Bool := p.any isStatusDet && !(p.any isPumpStart)

/-- The events strictly between status determination and pump start. -/
def windowEvents (tr : List AEvent) : List AEvent :=
  ((tr.dropWhile fun e => !(isStatusDet e)).drop 1).takeWhile fun e => !(isPumpStart e)

def lockHeldThroughWindow (tr : List AEvent) : Prop :=
  ∀ n : Nat, inWindow (tr.take n) = true → lockHeldAfter (tr.take n) = true

def windowReplyCount (tr : List AEvent) : Nat :=
  (windowEvents tr).countP isReplyWrite

/-- Formalisation of claim C1 for a trace: between status determination and
pump start the lock is held continuously and the reply is written exactly
once. -/
def claimC1 (tr : List AEvent) : Prop :=
  lockHeldThroughWindow tr ∧ windowReplyCount tr = 1

/-- A one-session registry with a free lock, used as concrete input. -/
def demoDaemon : Daemon :=
  ⟨[("dev", { started_at := 0, locked := false,
              inner := { shell_proc := 7, client_stream := 1 } })]⟩

/-- A one-session registry whose session is being pumped (lock held). -/
def busyDaemon : Daemon :=
  ⟨[("dev", { started_at := 0, locked := true,
              inner := { shell_proc := 7, client_stream := 1 } })]⟩

/-- The empty registry. -/
def emptyDaemon : Daemon := ⟨[]⟩

/-- A registry holding a session whose clock predates the Unix epoch. -/
def preEpochDaemon : Daemon :=
  ⟨[("old", { started_at := -3, locked := false,
              inner := { shell_proc := 1, client_stream := 2 } })]⟩

/-! ## Stream pump (bidi_stream, daemon.rs lines 185-324)

Each forwarding loop is driven by the finite sequence of outcomes its
environment produces.  Running out of events means the loop is still
running at that point (`LoopRes.running` / `WOut.exhausted`); it never
means the loop exited. -/

/-- Outcome of one inner write-retry loop. -/
inductive WOut where
  | done (written : List Nat)
  | cancelled (written : List Nat)
  | failed (e : String) (written : List Nat)
  | exhausted (written : List Nat) (remaining : List Nat)
deriving DecidableEq, Repr

/-- Per-iteration environment events of the client-to-shell write-retry
loop (daemon.rs lines 220-254): the stop check fires, the select on the
shell's stdin times out, the write accepts `n` bytes, or the write fails. -/
inductive CWEv where
  | stop
  | selTimeout
  | wrote (n : Nat)
  | wErr (e : String)
deriving DecidableEq, Repr

/-- Write-retry loop of the client-to-shell pump thread: while bytes
remain, check the stop channel, select on stdin with a poll timeout
(timeout re-checks stop), write, and drop the written front of the chunk. -/
def c2sWriteLoop : List Nat → List CWEv → List Nat → WOut
  | [], _, w => .done w
  | rem, [], w => .exhausted w rem
  | _, CWEv.stop :: _, w => .cancelled w
  | rem, CWEv.selTimeout :: evs, w => c2sWriteLoop rem evs w
  | rem, CWEv.wrote n :: evs, w => c2sWriteLoop (rem.drop n) evs (w ++ rem.take n)
  | _, CWEv.wErr e :: _, w => .failed e w

/-- Per-iteration environment events of the shell-to-client write-retry
loop (daemon.rs lines 288-297): stop check, write result.  There is no
select step on the client stream (it has a write timeout instead). -/
inductive SWEv where
  | stop
  | wrote (n : Nat)
  | wErr (e : String)
deriving DecidableEq, Repr

/-- Write-retry loop of the shell-to-client pump thread. -/
def s2cWriteLoop : List Nat → List SWEv → List Nat → WOut
  | [], _, w => .done w
  | rem, [], w => .exhausted w rem
  | _, SWEv.stop :: _, w => .cancelled w
  | rem, SWEv.wrote n :: evs, w => s2cWriteLoop (rem.drop n) evs (w ++ rem.take n)
  | _, SWEv.wErr e :: _, w => .failed e w

/-- The no-truncation property claim C5 asserts of a write-retry loop run
on `chunk`: a normal exit wrote the whole chunk, cancellation and write
errors abandon only an exact suffix, and a still-running loop holds
exactly the unwritten suffix. -/
def writeInv (chunk : List Nat) : WOut → Prop
  | .done w => w = chunk
  | .cancelled w => ∃ r, w ++ r = chunk
  | .failed _ w => ∃ r, w ++ r = chunk
  | .exhausted w rem => w ++ rem = chunk

/-- Exit-or-running state of one outer forwarding loop. -/
inductive LoopRes where
  | ok
  | err (e : String)
  | running
deriving DecidableEq, Repr

/-- Per-iteration events of the outer shell-to-client loop (daemon.rs
lines 261-302): stop check fires; select on stdout times out; the read
fails; or the read returns `data` (possibly empty: a zero-byte read is
end-of-stream) followed by the write-retry events and the flush outcome. -/
inductive S2CEv where
  | stop
  | selTimeout
  | readErr (e : String)
  | read (data : List Nat) (wevs : List SWEv) (flushOk : Bool)
deriving DecidableEq, Repr

/-- Outer shell-to-client forwarding loop.  Note the `read` case: the
loop body treats the chunk uniformly whatever its length; there is no
zero-length (end-of-stream) test anywhere. -/
def shellToClientLoop : List S2CEv → LoopRes
  | [] => .running
  | S2CEv.stop :: _ => .ok
  | S2CEv.selTimeout :: evs => shellToClientLoop evs
  | S2CEv.readErr e :: _ => .err e
  | S2CEv.read data wevs fOk :: evs =>
    match s2cWriteLoop data wevs [] with
    | .cancelled _ => .ok
    | .failed e _ => .err e
    | .exhausted _ _ => .running
    | .done _ => if fOk then shellToClientLoop evs else .err "flushing client stream"

/-- Per-iteration events of the outer client-to-shell loop (daemon.rs
lines 200-257): stop check; the timed read returns WouldBlock; the read
fails; or the read returns `data` followed by write-retry events and the
flush outcome. -/
inductive C2SEv where
  | stop
  | readWouldBlock
  | readErr (e : String)
  | read (data : List Nat) (wevs : List CWEv) (flushOk : Bool)
deriving DecidableEq, Repr

/-- Outer client-to-shell forwarding loop.  As above, a zero-byte read
(client closed its end) is just an empty chunk; the loop keeps going. -/
def clientToShellLoop : List C2SEv → LoopRes
  | [] => .running
  | C2SEv.stop :: _ => .ok
  | C2SEv.readWouldBlock :: evs => clientToShellLoop evs
  | C2SEv.readErr e :: _ => .err e
  | C2SEv.read data wevs fOk :: evs =>
    match c2sWriteLoop data wevs [] with
    | .cancelled _ => .ok
    | .failed e _ => .err e
    | .exhausted _ _ => .running
    | .done _ => if fOk then clientToShellLoop evs else .err "flushing stdin"

/-! ## Supervisor (daemon.rs lines 304-321) -/

/-- How one forwarding thread ended: clean return, error return, or an
abnormal termination (a panic, carrying its payload). -/
inductive LoopOutcome where
  | ok
  | err (e : String)
  | panicked (p : String)
deriving DecidableEq, Repr

/-- A finished forwarding thread: when it finished and how. -/
structure LoopFin where
  time : Nat
  outcome : LoopOutcome
deriving DecidableEq, Repr

/-- Result of the whole pump as the supervisor surfaces it. -/
inductive PumpResult where
  | ok
  | err (e : String)
  | panicRes (p : String)
deriving DecidableEq, Repr

/-- JOIN_POLL_DURATION from consts.rs, in milliseconds. -/
def joinPollMs : Nat := 100

/-- The first supervisor poll tick (multiples of joinPollMs, starting at
0) at or after time `t`. -/
def firstPollAtOrAfter (t : Nat) : Nat := ((t + joinPollMs - 1) / joinPollMs) * joinPollMs

/-- The value the supervisor surfaces, from the two join results.  It
joins the client-to-shell handle first: a panic there is re-raised; an
error there is returned (unless the scope then re-raises the other
thread's panic while unwinding its implicit join); otherwise the
shell-to-client join result decides. -/
def superviseJoins : LoopOutcome → LoopOutcome → PumpResult
  | .panicked p, _ => .panicRes p
  | .err _, .panicked p => .panicRes p
  | .err e, _ => .err e
  | .ok, .panicked p => .panicRes p
  | .ok, .err e => .err e
  | .ok, .ok => .ok

/-- Timing and result of one supervisor run. -/
structure PumpRun where
  stopSentAt : Nat
  returnedAt : Nat
  result : PumpResult
deriving DecidableEq, Repr

/-- The supervisor loop: poll both handles every joinPollMs, send the
stop signal at the first tick at which either thread has finished, then
join both threads (so it returns no earlier than either finish time). -/
def supervise (c2s s2c : LoopFin) : PumpRun :=
  let brk := firstPollAtOrAfter (min c2s.time s2c.time)
  { stopSentAt := brk
  , returnedAt := max brk (max c2s.time s2c.time)
  , result := superviseJoins c2s.outcome s2c.outcome }

/-- The error of whichever loop errored first in time, if any — the
reading of "the first error encountered by either loop" in claim C6. -/
def firstErrTime : LoopFin → LoopFin → Option String
  | ⟨t1, .err e1⟩, ⟨t2, .err e2⟩ => some (if t1 ≤ t2 then e1 else e2)
  | ⟨_, .err e1⟩, _ => some e1
  | _, ⟨_, .err e2⟩ => some e2
  | _, _ => none

/-! ## List handler (daemon.rs lines 164-182) -/

/-- Rust's `as i64` cast of an unsigned value: reduce modulo 2^64 and
reinterpret the top half as negative. -/
def i64cast (n : Nat) : Int :=
  let m : Nat := n % 2 ^ 64
  if m < 2 ^ 63 then (m : Int) else (m : Int) - 2 ^ 64

/-- One element of the collected iterator in handle_list:
`started_at.duration_since(UNIX_EPOCH)` fails exactly when the timestamp
precedes the epoch; otherwise the duration's whole milliseconds are cast
to i64. -/
def sessionEntry (name : String) (sess : ShellSession) : Except String (String × Int) :=
  if sess.started_at < 0 then Except.error "SystemTimeError"
  else Except.ok (name, i64cast sess.started_at.toNat)

/-- What one handle_list call did: its return value and the reply written
to the stream, if any. -/
structure ListRun where
  result : Except String Unit
  written : Option (List (String × Int))
deriving Repr

/-- Iterator::collect over the per-session entries: the first failing
entry short-circuits the whole collection. -/
def collectEntries : List (String × ShellSession) → Except String (List (String × Int))
  | [] => .ok []
  | p :: t =>
    match sessionEntry p.1 p.2 with
    | .error e => .error e
    | .ok entry =>
      match collectEntries t with
      | .error e => .error e
      | .ok rest => .ok (entry :: rest)

/-- Daemon::handle_list: collect an entry per registered session,
short-circuiting on the first pre-epoch timestamp; only on full success
is the reply written to the stream. -/
def handle_list (d : Daemon) : ListRun :=
  match collectEntries d.shells with
  | .error e => { result := .error e, written := none }
  | .ok sessions => { result := .ok (), written := some sessions }

/-! ## Framed codec (daemon.rs lines 391-419)

The `protocol` module and its MessagePack serialization live outside
`src/`, so the payload encoding is modelled from the spec; the framing
(length prefix, exact read, deserialize) is translated from the source. -/

/-- The 4-byte little-endian encoding of `n` (mod 2^32), as
`write_u32::<LittleEndian>` produces after the `as u32` cast. -/
def toLE32 (n : Nat) : List Nat :=
  [n % 256, n / 256 % 256, n / 65536 % 256, n / 16777216 % 256]

/-- The value read back from 4 little-endian bytes by
`read_u32::<LittleEndian>`. -/
def le32 (b0 b1 b2 b3 : Nat) : Nat := b0 + 256 * b1 + 65536 * b2 + 16777216 * b3

/-- Modelled from the spec: the connect header is `Attach{name}` or
`List` (spec section 6); the name's bytes are kept abstract. -/
inductive ConnectHeader where
  | attach (name : List Nat)
  | list
deriving DecidableEq, Repr

/-- Modelled from the spec: a concrete injective stand-in for the
MessagePack serialization of the connect header (not under `src/`): a
tag byte, then for Attach the name's length as 4 little-endian bytes
followed by the name's bytes. -/
def encodeConnectHeader : ConnectHeader → List Nat
  | .list => [0]
  | .attach name => 1 :: (toLE32 name.length ++ name)

/-- Modelled from the spec: inverse of `encodeConnectHeader`, the
deserializer applied to a fully-read payload; any non-conforming payload
is a decode error. -/
def decodeConnectHeader (payload : List Nat) : Option ConnectHeader :=
  match payload with
  | [0] => some .list
  | 1 :: b0 :: b1 :: b2 :: b3 :: name =>
    if name.length = le32 b0 b1 b2 b3 then some (.attach name) else none
  | _ => none

/-- write_reply's wire bytes (daemon.rs lines 402-419): the payload's
length as a 4-byte little-endian prefix, then the payload. -/
def write_reply (payload : List Nat) : List Nat := toLE32 payload.length ++ payload

/-- parse_connect_header (daemon.rs lines 391-400): read a 4-byte
little-endian prefix, read exactly that many payload bytes (failing if
the stream has fewer), deserialize.  Bytes beyond the frame stay on the
stream. -/
def parse_connect_header (wire : List Nat) : Option ConnectHeader :=
  match wire with
  | b0 :: b1 :: b2 :: b3 :: rest =>
    let len := le32 b0 b1 b2 b3
    if len ≤ rest.length then decodeConnectHeader (rest.take len) else none
  | _ => none

/-! ## MOTD raw conversion (show_motd.rs lines 116-131) -/

/-- The one capability convert_to_raw needs from the terminfo database. -/
structure TermInfo where
  carriage_return : Option (List Nat)
deriving DecidableEq, Repr

/-- Rust's `str::split('\n')` on the byte level: newline-separated parts,
with an empty part for each leading/trailing/doubled newline; the empty
string yields one empty part.  Byte 10 never occurs inside a multi-byte
UTF-8 sequence, so splitting bytes agrees with splitting chars. -/
def splitOnNl : List Nat → List (List Nat)
  | [] => [[]]
  | b :: rest =>
    if b = 10 then [] :: splitOnNl rest
    else
      match splitOnNl rest with
      | [] => [[b]]
      | l :: ls => (b :: l) :: ls

/-- DailyMessenger::convert_to_raw: look up the carriage-return
capability (failing without one), then build the output buffer by
appending, for each newline-separated line, the line's bytes, a newline
byte, and the carriage-return code. -/
def convert_to_raw (term_db : TermInfo) (motd : List Nat) : Except String (List Nat) :=
  match term_db.carriage_return with
  | none => Except.error "no carrage return code"
  | some cr =>
    Except.ok ((splitOnNl motd).foldl (fun buf line => buf ++ line ++ [10] ++ cr) [])

/-! ## Helper lemmas -/

theorem lookupSession_append_none (l : List (String × ShellSession)) (n : String)
    (sess : ShellSession) (h : lookupSession l n = none) :
    lookupSession (l ++ [(n, sess)]) n = some sess := by
  induction l with
  | nil => simp [lookupSession]
  | cons p t ih =>
    by_cases hp : p.1 = n
    · simp [lookupSession, hp] at h
    · simp only [List.cons_append, lookupSession, hp, if_false] at h ⊢
      exact ih h

theorem lookupSession_update (l : List (String × ShellSession)) (n : String)
    (s0 sess : ShellSession) (h : lookupSession l n = some s0) :
    lookupSession (l.map fun p => if p.1 = n then (p.1, sess) else p) n = some sess := by
  induction l with
  | nil => simp [lookupSession] at h
  | cons p t ih =>
    by_cases hp : p.1 = n
    · simp [lookupSession, hp]
    · simp only [List.map_cons, hp, if_false, lookupSession] at h ⊢
      exact ih h

theorem c2sWriteLoop_writeInv (evs : List CWEv) :
    ∀ rem w : List Nat, writeInv (w ++ rem) (c2sWriteLoop rem evs w) := by
  induction evs with
  | nil =>
    intro rem w
    cases rem with
    | nil => simp [c2sWriteLoop, writeInv]
    | cons b t => simp [c2sWriteLoop, writeInv]
  | cons e evs ih =>
    intro rem w
    cases rem with
    | nil => simp [c2sWriteLoop, writeInv]
    | cons b t =>
      cases e with
      | stop => exact ⟨b :: t, rfl⟩
      | selTimeout => simpa [c2sWriteLoop] using ih (b :: t) w
      | wrote n =>
        have h := ih ((b :: t).drop n) (w ++ (b :: t).take n)
        rw [List.append_assoc, List.take_append_drop] at h
        simpa [c2sWriteLoop] using h
      | wErr e => exact ⟨b :: t, rfl⟩

theorem s2cWriteLoop_writeInv (evs : List SWEv) :
    ∀ rem w : List Nat, writeInv (w ++ rem) (s2cWriteLoop rem evs w) := by
  induction evs with
  | nil =>
    intro rem w
    cases rem with
    | nil => simp [s2cWriteLoop, writeInv]
    | cons b t => simp [s2cWriteLoop, writeInv]
  | cons e evs ih =>
    intro rem w
    cases rem with
    | nil => simp [s2cWriteLoop, writeInv]
    | cons b t =>
      cases e with
      | stop => exact ⟨b :: t, rfl⟩
      | wrote n =>
        have h := ih ((b :: t).drop n) (w ++ (b :: t).take n)
        rw [List.append_assoc, List.take_append_drop] at h
        simpa [s2cWriteLoop] using h
      | wErr e => exact ⟨b :: t, rfl⟩

theorem firstPoll_ge (t : Nat) : t ≤ firstPollAtOrAfter t := by
  unfold firstPollAtOrAfter joinPollMs
  omega

theorem firstPoll_lt (t : Nat) : firstPollAtOrAfter t < t + joinPollMs := by
  unfold firstPollAtOrAfter joinPollMs
  omega

theorem collectEntries_ok (l : List (String × ShellSession))
    (h : ∀ p ∈ l, 0 ≤ p.2.started_at) :
    collectEntries l = Except.ok (l.map fun p => (p.1, i64cast p.2.started_at.toNat)) := by
  induction l with
  | nil => rfl
  | cons a t ih =>
    have ha : ¬ a.2.started_at < 0 := not_lt.2 (h a (List.mem_cons_self a t))
    have ht := ih fun p hp => h p (List.mem_cons_of_mem a hp)
    simp [collectEntries, sessionEntry, ha, ht]

theorem collectEntries_err (l : List (String × ShellSession))
    (h : ∃ p ∈ l, p.2.started_at < 0) :
    ∃ e, collectEntries l = Except.error e := by
  induction l with
  | nil => simp at h
  | cons a t ih =>
    by_cases ha : a.2.started_at < 0
    · exact ⟨"SystemTimeError", by simp [collectEntries, sessionEntry, ha]⟩
    · obtain ⟨p, hp, hneg⟩ := h
      rcases List.mem_cons.1 hp with rfl | hmem
      · exact absurd hneg ha
      · obtain ⟨e, he⟩ := ih ⟨p, hmem, hneg⟩
        exact ⟨e, by simp [collectEntries, sessionEntry, ha, he]⟩

theorem i64cast_small (n : Nat) (h : n < 2 ^ 63) : i64cast n = n := by
  simp only [i64cast]
  norm_num at h ⊢
  omega

theorem le32_toLE32 (n : Nat) (hn : n < 4294967296) :
    le32 (n % 256) (n / 256 % 256) (n / 65536 % 256) (n / 16777216 % 256) = n := by
  unfold le32
  omega

theorem splitOnNl_ne_nil (l : List Nat) : splitOnNl l ≠ [] := by
  cases l with
  | nil => simp [splitOnNl]
  | cons b t =>
    by_cases hb : b = 10
    · simp [splitOnNl, hb]
    · cases h : splitOnNl t with
      | nil => simp [splitOnNl, hb, h]
      | cons x xs => simp [splitOnNl, hb, h]

theorem flatten_intersperse_splitOnNl (motd : List Nat) :
    ((splitOnNl motd).intersperse [10]).flatten = motd := by
  induction motd with
  | nil => rfl
  | cons b t ih =>
    by_cases hb : b = 10
    · subst hb
      cases h : splitOnNl t with
      | nil => exact absurd h (splitOnNl_ne_nil t)
      | cons x xs =>
        rw [h] at ih
        simp only [splitOnNl, if_pos rfl, h, List.intersperse_cons_cons,
          List.flatten_cons, List.nil_append, List.cons_append, List.nil_append]
        simpa using ih
    · cases h : splitOnNl t with
      | nil => exact absurd h (splitOnNl_ne_nil t)
      | cons x xs =>
        rw [h] at ih
        simp only [splitOnNl, hb, if_false, h]
        cases xs with
        | nil => simpa using ih
        | cons y ys =>
          simp only [List.intersperse_cons_cons, List.flatten_cons,
            List.cons_append] at ih ⊢
          simpa using ih

theorem foldl_lines_eq_flatten (cr : List Nat) (L : List (List Nat)) :
    ∀ acc : List Nat,
      L.foldl (fun buf line => buf ++ line ++ [10] ++ cr) acc
        = acc ++ (L.map fun line => line ++ [10] ++ cr).flatten := by
  induction L with
  | nil => intro acc; simp
  | cons x xs ih =>
    intro acc
    rw [List.foldl_cons, ih, List.map_cons, List.flatten_cons]
    simp [List.append_assoc]

/-! ## Claim theorems -/

/-- C1 (counterexample): on an Attach that finds the session with a free
lock, the window between status determination and pump start contains the
handler's release of the exclusive lock, so the lock is not held
continuously by one worker there — the claim is false on the code. -/
theorem c1_lock_window_counterexample :
    ¬ claimC1 (handle_attach demoDaemon "dev" 2 (Except.ok 9) 5).events :=
  fun h => absurd (h.1 5 (by decide)) (by decide)

/-- C1 (amended): between status determination and pump start the reply is
written exactly once, but the lock is not held continuously: in the
Attached case the window consists of the handler releasing the try-lock,
the worker re-acquiring it, and the worker's (second overall) reply write;
in the Created case no lock is held at determination and the window is the
worker's acquisition followed by the single reply write. -/
theorem c1_lock_window_amended (d : Daemon) (name : String) (stream child : Nat) (now : Int) :
    (∀ sess, lookupSession d.shells name = some sess → sess.locked = false →
      windowEvents (handle_attach d name stream (Except.ok child) now).events
        = [AEvent.lockRelease, AEvent.workerLock,
           AEvent.writeReply stream AttachStatus.attached] ∧
      windowReplyCount (handle_attach d name stream (Except.ok child) now).events = 1 ∧
      (handle_attach d name stream (Except.ok child) now).events.countP isReplyWrite = 2) ∧
    (lookupSession d.shells name = none →
      windowEvents (handle_attach d name stream (Except.ok child) now).events
        = [AEvent.workerLock, AEvent.writeReply stream AttachStatus.created] ∧
      windowReplyCount (handle_attach d name stream (Except.ok child) now).events = 1 ∧
      (handle_attach d name stream (Except.ok child) now).events.countP isReplyWrite = 1) := by
  constructor
  · intro sess hs hl
    simp only [handle_attach, hs, hl, if_false, Bool.false_eq_true]
    refine ⟨?_, ?_, ?_⟩ <;> trivial
  · intro h
    simp only [handle_attach, h, spawn_subshell]
    refine ⟨?_, ?_, ?_⟩ <;> trivial

/-- C1 (amended) witness at a concrete registry. -/
theorem c1_lock_window_amended_witness :
    lookupSession demoDaemon.shells "dev"
      = some { started_at := 0, locked := false,
               inner := { shell_proc := 7, client_stream := 1 } } ∧
    windowEvents (handle_attach demoDaemon "dev" 2 (Except.ok 9) 5).events
      = [AEvent.lockRelease, AEvent.workerLock,
         AEvent.writeReply 2 AttachStatus.attached] := by
  refine ⟨by decide, ?_⟩
  exact ((c1_lock_window_amended demoDaemon "dev" 2 9 5).1
    { started_at := 0, locked := false,
      inner := { shell_proc := 7, client_stream := 1 } } (by decide) rfl).1

/-- C2: an Attach for an unseen name spawns a shell, inserts a session
holding that shell under the name with the connection's stream, and
determines status Created; an Attach for a present name with an
immediately obtainable lock determines status Attached and replaces the
stored client stream while leaving the shell process handle and the
creation timestamp unchanged. -/
theorem c2_attach_functional (d : Daemon) (name : String) (stream child : Nat) (now : Int) :
    (lookupSession d.shells name = none →
      (handle_attach d name stream (Except.ok child) now).status = some AttachStatus.created ∧
      lookupSession (handle_attach d name stream (Except.ok child) now).daemon.shells name
        = some { started_at := now, locked := true,
                 inner := { shell_proc := child, client_stream := stream } }) ∧
    (∀ sess, lookupSession d.shells name = some sess → sess.locked = false →
      (handle_attach d name stream (Except.ok child) now).status = some AttachStatus.attached ∧
      ∃ sess2,
        lookupSession (handle_attach d name stream (Except.ok child) now).daemon.shells name
          = some sess2 ∧
        sess2.inner.client_stream = stream ∧
        sess2.inner.shell_proc = sess.inner.shell_proc ∧
        sess2.started_at = sess.started_at) := by
  constructor
  · intro h
    simp only [handle_attach, h, spawn_subshell]
    exact ⟨by trivial, lookupSession_append_none d.shells name _ h⟩
  · intro sess hs hl
    simp only [handle_attach, hs, hl, if_false, Bool.false_eq_true]
    refine ⟨by trivial, ?_⟩
    exact ⟨_, lookupSession_update d.shells name sess _ hs, rfl, rfl, rfl⟩

/-- C2 witness: a fresh name on the empty registry and a takeover of the
idle demo session. -/
theorem c2_attach_functional_witness :
    lookupSession emptyDaemon.shells "w" = none ∧
    (handle_attach emptyDaemon "w" 3 (Except.ok 4) 8).status = some AttachStatus.created ∧
    lookupSession demoDaemon.shells "dev"
      = some { started_at := 0, locked := false,
               inner := { shell_proc := 7, client_stream := 1 } } ∧
    (handle_attach demoDaemon "dev" 2 (Except.ok 9) 5).status = some AttachStatus.attached := by
  refine ⟨by decide, ?_, by decide, ?_⟩
  · exact ((c2_attach_functional emptyDaemon "w" 3 4 8).1 (by decide)).1
  · exact ((c2_attach_functional demoDaemon "dev" 2 9 5).2
      { started_at := 0, locked := false,
        inner := { shell_proc := 7, client_stream := 1 } } (by decide) rfl).1

/-- C3: an Attach that finds the name but cannot immediately obtain the
exclusive lock writes Busy on the new connection, shuts that connection
down, starts no pump, and leaves the whole registry — hence the session's
shell handle, stored stream, and creation timestamp — unchanged. -/
theorem c3_busy_frame (d : Daemon) (name : String) (stream : Nat)
    (spawnOutcome : Except String Nat) (now : Int) (sess : ShellSession)
    (hs : lookupSession d.shells name = some sess) (hl : sess.locked = true) :
    (handle_attach d name stream spawnOutcome now).result = Except.ok () ∧
    (handle_attach d name stream spawnOutcome now).writes = [(stream, AttachStatus.busy)] ∧
    (handle_attach d name stream spawnOutcome now).closed = [stream] ∧
    (handle_attach d name stream spawnOutcome now).daemon = d ∧
    (handle_attach d name stream spawnOutcome now).pumped = none := by
  simp only [handle_attach, hs, hl, if_true]
  refine ⟨?_, ?_, ?_, ?_, ?_⟩ <;> trivial

/-- C3 witness on the busy demo registry. -/
theorem c3_busy_frame_witness :
    lookupSession busyDaemon.shells "dev"
      = some { started_at := 0, locked := true,
               inner := { shell_proc := 7, client_stream := 1 } } ∧
    (handle_attach busyDaemon "dev" 2 (Except.ok 9) 5).daemon = busyDaemon ∧
    (handle_attach busyDaemon "dev" 2 (Except.ok 9) 5).writes
      = [(2, AttachStatus.busy)] := by
  refine ⟨by decide, ?_, ?_⟩
  · exact (c3_busy_frame busyDaemon "dev" 2 (Except.ok 9) 5
      { started_at := 0, locked := true,
        inner := { shell_proc := 7, client_stream := 1 } } (by decide) rfl).2.2.2.1
  · exact (c3_busy_frame busyDaemon "dev" 2 (Except.ok 9) 5
      { started_at := 0, locked := true,
        inner := { shell_proc := 7, client_stream := 1 } } (by decide) rfl).2.1

/-- C4 (code behaviour at the claimed exit point): a zero-byte read —
end-of-stream on the shell's output — does not make the shell-to-client
loop exit: the loop is still running after consuming it, keeps forwarding
later chunks, and ends only through a later cancellation; the symmetric
client-to-shell loop behaves the same on its source's end-of-stream. -/
theorem c4_eof_no_exit :
    shellToClientLoop [S2CEv.read [] [] true] = LoopRes.running ∧
    shellToClientLoop [S2CEv.read [] [] true,
        S2CEv.read [3] [SWEv.wrote 1] true] = LoopRes.running ∧
    shellToClientLoop [S2CEv.read [] [] true, S2CEv.stop] = LoopRes.ok ∧
    clientToShellLoop [C2SEv.read [] [] true] = LoopRes.running :=
  ⟨rfl, rfl, rfl, rfl⟩

/-- C5: in both forwarding loops the write side is retried until the whole
chunk is written (after which the loop flushes) or cancellation is
observed; whenever a retry loop is still running, the bytes written so far
plus the exact unwritten suffix reconstruct the chunk, so no suffix is
ever dropped while the loop continues. -/
theorem c5_write_retry_no_truncation :
    (∀ (chunk : List Nat) (evs : List CWEv), writeInv chunk (c2sWriteLoop chunk evs [])) ∧
    (∀ (chunk : List Nat) (evs : List SWEv), writeInv chunk (s2cWriteLoop chunk evs [])) ∧
    (∀ (data : List Nat) (wevs : List SWEv) (evs : List S2CEv) (w : List Nat),
      s2cWriteLoop data wevs [] = WOut.done w →
        shellToClientLoop (S2CEv.read data wevs false :: evs)
          = LoopRes.err "flushing client stream") ∧
    (∀ (data : List Nat) (wevs : List CWEv) (evs : List C2SEv) (w : List Nat),
      c2sWriteLoop data wevs [] = WOut.done w →
        clientToShellLoop (C2SEv.read data wevs false :: evs)
          = LoopRes.err "flushing stdin") := by
  refine ⟨?_, ?_, ?_, ?_⟩
  · intro chunk evs
    simpa using c2sWriteLoop_writeInv evs chunk []
  · intro chunk evs
    simpa using s2cWriteLoop_writeInv evs chunk []
  · intro data wevs evs w h
    simp [shellToClientLoop, h]
  · intro data wevs evs w h
    simp [clientToShellLoop, h]

/-- C5 witness: a chunk written in two partial writes, and a completed
chunk followed by a failing flush. -/
theorem c5_write_retry_no_truncation_witness :
    writeInv [3, 4] (c2sWriteLoop [3, 4] [CWEv.wrote 1, CWEv.wrote 1] []) ∧
    s2cWriteLoop [5] [SWEv.wrote 1] [] = WOut.done [5] ∧
    shellToClientLoop [S2CEv.read [5] [SWEv.wrote 1] false]
      = LoopRes.err "flushing client stream" :=
  ⟨c5_write_retry_no_truncation.1 [3, 4] [CWEv.wrote 1, CWEv.wrote 1], rfl,
   c5_write_retry_no_truncation.2.2.1 [5] [SWEv.wrote 1] [] [5] rfl⟩

/-- C6 (counterexample): when both loops return errors, the pump surfaces
the client-to-shell loop's error even if the shell-to-client loop errored
first in time, so "the first error encountered by either loop" is not the
error returned. -/
theorem c6_first_error_counterexample :
    firstErrTime ⟨5, LoopOutcome.err "A"⟩ ⟨1, LoopOutcome.err "B"⟩ = some "B" ∧
    (supervise ⟨5, LoopOutcome.err "A"⟩ ⟨1, LoopOutcome.err "B"⟩).result
      = PumpResult.err "A" ∧
    PumpResult.err "A" ≠ PumpResult.err "B" := by
  refine ⟨by decide, by decide, by decide⟩

/-- C6 (amended): once either loop finishes the supervisor raises the stop
signal within one poll interval, returns no earlier than either loop's
finish, re-raises a panic from either loop, and surfaces the
client-to-shell loop's error when that loop errored (otherwise the
shell-to-client loop's error); when at most one loop errs — the common
case — that is the first error. -/
theorem c6_supervisor_amended (c2s s2c : LoopFin) :
    min c2s.time s2c.time ≤ (supervise c2s s2c).stopSentAt ∧
    (supervise c2s s2c).stopSentAt < min c2s.time s2c.time + joinPollMs ∧
    c2s.time ≤ (supervise c2s s2c).returnedAt ∧
    s2c.time ≤ (supervise c2s s2c).returnedAt ∧
    (∀ e, c2s.outcome = LoopOutcome.err e →
      (∀ p, s2c.outcome ≠ LoopOutcome.panicked p) →
      (supervise c2s s2c).result = PumpResult.err e) ∧
    (∀ e, c2s.outcome = LoopOutcome.ok → s2c.outcome = LoopOutcome.err e →
      (supervise c2s s2c).result = PumpResult.err e) ∧
    (((∃ p, c2s.outcome = LoopOutcome.panicked p) ∨
        (∃ p, s2c.outcome = LoopOutcome.panicked p)) →
      ∃ q, (supervise c2s s2c).result = PumpResult.panicRes q) ∧
    (c2s.outcome = LoopOutcome.ok → s2c.outcome = LoopOutcome.ok →
      (supervise c2s s2c).result = PumpResult.ok) := by
  refine ⟨firstPoll_ge _, firstPoll_lt _, ?_, ?_, ?_, ?_, ?_, ?_⟩
  · exact le_max_of_le_right (le_max_left _ _)
  · exact le_max_of_le_right (le_max_right _ _)
  · intro e he hnp
    cases hs2 : s2c.outcome with
    | ok => simp [supervise, superviseJoins, he, hs2]
    | err e2 => simp [supervise, superviseJoins, he, hs2]
    | panicked p => exact absurd hs2 (hnp p)
  · intro e hok herr
    simp [supervise, superviseJoins, hok, herr]
  · rintro (⟨p, hp⟩ | ⟨p, hp⟩)
    · exact ⟨p, by simp [supervise, superviseJoins, hp]⟩
    · cases hc : c2s.outcome with
      | ok => exact ⟨p, by simp [supervise, superviseJoins, hc, hp]⟩
      | err e => exact ⟨p, by simp [supervise, superviseJoins, hc, hp]⟩
      | panicked q => exact ⟨q, by simp [supervise, superviseJoins, hc]⟩
  · intro h1 h2
    simp [supervise, superviseJoins, h1, h2]

/-- C6 (amended) witness: only the client-to-shell loop errs; its error is
surfaced and the supervisor returns after both loops. -/
theorem c6_supervisor_amended_witness :
    (⟨5, LoopOutcome.err "A"⟩ : LoopFin).outcome = LoopOutcome.err "A" ∧
    (supervise ⟨5, LoopOutcome.err "A"⟩ ⟨1, LoopOutcome.ok⟩).result = PumpResult.err "A" := by
  refine ⟨rfl, ?_⟩
  exact (c6_supervisor_amended ⟨5, LoopOutcome.err "A"⟩ ⟨1, LoopOutcome.ok⟩).2.2.2.2.1
    "A" rfl (fun p h => LoopOutcome.noConfusion h)

/-- C7: when the name is unseen and spawning fails, handle_attach
propagates the error, writes no reply bytes to the waiting client, and
leaves the registry exactly as it was. -/
theorem c7_spawn_failure (d : Daemon) (name : String) (stream : Nat) (e : String)
    (now : Int) (h : lookupSession d.shells name = none) :
    (handle_attach d name stream (Except.error e) now).result = Except.error e ∧
    (handle_attach d name stream (Except.error e) now).writes = [] ∧
    (handle_attach d name stream (Except.error e) now).daemon = d ∧
    (handle_attach d name stream (Except.error e) now).pumped = none := by
  simp only [handle_attach, h, spawn_subshell]
  refine ⟨?_, ?_, ?_, ?_⟩ <;> trivial

/-- C7 witness on the empty registry. -/
theorem c7_spawn_failure_witness :
    lookupSession emptyDaemon.shells "w" = none ∧
    (handle_attach emptyDaemon "w" 3 (Except.error "spawning subshell") 8).result
      = Except.error "spawning subshell" ∧
    (handle_attach emptyDaemon "w" 3 (Except.error "spawning subshell") 8).writes = [] := by
  refine ⟨by decide, ?_, ?_⟩
  · exact (c7_spawn_failure emptyDaemon "w" 3 "spawning subshell" 8 (by decide)).1
  · exact (c7_spawn_failure emptyDaemon "w" 3 "spawning subshell" 8 (by decide)).2.1

theorem parse_frame (payload rest : List Nat) (h : payload.length < 4294967296) :
    parse_connect_header (write_reply payload ++ rest) = decodeConnectHeader payload := by
  rw [write_reply, toLE32]
  simp only [List.cons_append, List.nil_append, parse_connect_header]
  rw [le32_toLE32 _ h]
  rw [if_pos (by simp)]
  rw [List.take_left]

theorem decode_encode (h : ConnectHeader)
    (hlen : (encodeConnectHeader h).length < 4294967296) :
    decodeConnectHeader (encodeConnectHeader h) = some h := by
  cases h with
  | list => rfl
  | attach name =>
    have hname : name.length < 4294967296 := by
      simp [encodeConnectHeader, toLE32] at hlen
      omega
    simp only [encodeConnectHeader, toLE32, List.cons_append, List.nil_append,
      decodeConnectHeader]
    rw [le32_toLE32 _ hname]
    simp

/-- C8: framing a connect header writes a 4-byte little-endian prefix
holding exactly the serialized payload's length followed by that payload,
and the framed reader run on those bytes (with anything following them
still on the stream) recovers the original header. -/
theorem c8_codec_roundtrip (h : ConnectHeader) (rest : List Nat)
    (hlen : (encodeConnectHeader h).length < 4294967296) :
    write_reply (encodeConnectHeader h)
      = toLE32 (encodeConnectHeader h).length ++ encodeConnectHeader h ∧
    parse_connect_header (write_reply (encodeConnectHeader h) ++ rest) = some h :=
  ⟨rfl, by rw [parse_frame _ _ hlen, decode_encode h hlen]⟩

/-- C8 witness at a two-byte name with trailing stream bytes. -/
theorem c8_codec_roundtrip_witness :
    (encodeConnectHeader (ConnectHeader.attach [104, 105])).length < 4294967296 ∧
    parse_connect_header
        (write_reply (encodeConnectHeader (ConnectHeader.attach [104, 105])) ++ [7])
      = some (ConnectHeader.attach [104, 105]) :=
  ⟨by decide, (c8_codec_roundtrip (ConnectHeader.attach [104, 105]) [7] (by decide)).2⟩

/-- C9: if any registered session's creation timestamp precedes the Unix
epoch the List handler errors before writing anything, so no reply (not
even a partial one) reaches the client; otherwise the reply holds exactly
one entry per registered session carrying its name and its creation time
in epoch milliseconds (the i64 cast being the identity for any timestamp
below 2^63 ms). -/
theorem c9_list_reply (d : Daemon) :
    ((∃ p ∈ d.shells, p.2.started_at < 0) →
      (handle_list d).written = none ∧
      ∃ e, (handle_list d).result = Except.error e) ∧
    ((∀ p ∈ d.shells, 0 ≤ p.2.started_at) →
      (handle_list d).written
        = some (d.shells.map fun p => (p.1, i64cast p.2.started_at.toNat)) ∧
      (handle_list d).result = Except.ok ()) ∧
    (∀ p ∈ d.shells, 0 ≤ p.2.started_at → p.2.started_at < 2 ^ 63 →
      i64cast p.2.started_at.toNat = p.2.started_at) := by
  refine ⟨?_, ?_, ?_⟩
  · intro h
    obtain ⟨e, he⟩ := collectEntries_err d.shells h
    simp [handle_list, he]
  · intro h
    simp [handle_list, collectEntries_ok d.shells h]
  · intro p _ h0 hlt
    have htn : p.2.started_at.toNat < 2 ^ 63 := by omega
    rw [i64cast_small _ htn]
    exact Int.toNat_of_nonneg h0

/-- C9 witness: a pre-epoch registry yields no reply; the demo registry
yields its single entry with its millisecond timestamp. -/
theorem c9_list_reply_witness :
    (∃ p ∈ preEpochDaemon.shells, p.2.started_at < 0) ∧
    (handle_list preEpochDaemon).written = none ∧
    (∀ p ∈ demoDaemon.shells, 0 ≤ p.2.started_at) ∧
    (handle_list demoDaemon).written = some [("dev", 0)] := by
  refine ⟨by decide, ?_, by decide, ?_⟩
  · exact ((c9_list_reply preEpochDaemon).1 (by decide)).1
  · exact (((c9_list_reply demoDaemon).2.1 (by decide)).1).trans rfl

/-- C10: the MOTD raw conversion fails exactly when the terminal database
lacks the carriage-return capability, and otherwise returns the
concatenation, over the newline-separated lines of the input (which the
split genuinely decomposes: re-joining the parts with newlines gives the
input back), of the line's bytes, a newline byte, and the carriage-return
code — so every line, a trailing unterminated one included, gains a
newline plus carriage return. -/
theorem c10_motd_raw (db : TermInfo) (motd : List Nat) :
    (db.carriage_return = none →
      convert_to_raw db motd = Except.error "no carrage return code") ∧
    (∀ cr, db.carriage_return = some cr →
      convert_to_raw db motd
        = Except.ok (((splitOnNl motd).map fun line => line ++ [10] ++ cr).flatten)) ∧
    ((splitOnNl motd).intersperse [10]).flatten = motd := by
  refine ⟨?_, ?_, flatten_intersperse_splitOnNl motd⟩
  · intro h
    simp [convert_to_raw, h]
  · intro cr h
    simp only [convert_to_raw, h]
    rw [foldl_lines_eq_flatten]
    simp

/-- C10 witness: a terminal with CR code 13 and the input "h\n". -/
theorem c10_motd_raw_witness :
    (⟨some [13]⟩ : TermInfo).carriage_return = some [13] ∧
    convert_to_raw ⟨some [13]⟩ [104, 10] = Except.ok [104, 10, 13, 10, 13] := by
  refine ⟨rfl, ?_⟩
  exact ((c10_motd_raw ⟨some [13]⟩ [104, 10]).2.1 [13] rfl).trans rfl

end Shpool
